import Mathlib

/-!
Verification of the KeyRemover repository (src/key_remover.py).

The Python class `KeyRemover` is shallowly embedded as pure Lean functions
over a `World` record.  `World` packages the answers the operating system
gives to the run's queries (path existence, glob enumeration, plist
parsing, write access, deletion outcomes, process spawns).  Since the run
issues each query at most at fixed program points, recording the answers
as functions is an adequate model of one execution.  Side effects of the
run itself (deletions performed, processes spawned, messages printed) are
made observable: every operation returns, next to the value the Python
function returns, the ordered list of `Action`s it performed and the list
of log lines it printed.
-/

namespace KeyRemover

/-! ## String helpers (structural, kernel-reducible replacements for
Python's `str.lower`, `in`, `startswith` and `pathlib.Path.stem`) -/

/-- ASCII lower-casing, modelling Python's `str.lower()` on the ASCII
fragment relevant here. -/
def strLower (s : String) : String :=
  String.mk (s.data.map Char.toLower)

/-- Does the character list `s` start with the character list `pat`? -/
def listStartsWith : List Char → List Char → Bool
  | _, [] => true
  | [], _ :: _ => false
  | a :: as, b :: bs => a == b && listStartsWith as bs

/-- Does `s` contain `pat` as a contiguous sublist?  Models Python's
`pat in s` on strings. -/
def listContainsSub : List Char → List Char → Bool
  | [], pat => listStartsWith [] pat
  | s@(_ :: rest), pat => listStartsWith s pat || listContainsSub rest pat

/-- Substring test on strings: Python's `pat in s`. -/
def containsSubstr (s pat : String) : Bool :=
  listContainsSub s.data pat.data

/-- Python's `s.startswith(pre)`. -/
def strStartsWith (s pre : String) : Bool :=
  listStartsWith s.data pre.data

/-- The part of a path after its last slash: `pathlib.Path(p).name`. -/
def lastComponent (p : String) : List Char :=
  p.data.foldl (fun acc c => if c == '/' then [] else acc ++ [c]) []

/-- Index of the last dot of a character list, if any. -/
def lastIdxOfDot (cs : List Char) : Option Nat :=
  (List.range cs.length).foldl
    (fun acc i => if cs.getD i ' ' == '.' then some i else acc) none

/-- `pathlib.PurePath.stem` on the final component `cs`: the name without
its suffix, where a suffix starts at the last dot provided that dot is
neither the first nor the last character. -/
def pyStemChars (cs : List Char) : List Char :=
  match lastIdxOfDot cs with
  | none => cs
  | some i => if 0 < i ∧ i + 1 < cs.length then cs.take i else cs

/-- `pathlib.Path(p).stem`. -/
def pyStem (p : String) : String :=
  String.mk (pyStemChars (lastComponent p))

/-- Python truthiness of an optional string (`None` and `""` are falsy). -/
def pyTruthy : Option String → Bool
  | none => false
  | some s => !s.data.isEmpty

/-! ## Data model -/

/-- Result of a completed external process (`subprocess`). -/
structure ExecResult where
  returncode : Int
  stdout : String
  stderr : String
deriving DecidableEq, Repr

/-- Outcome of attempting to spawn and run an external process: either it
completed with an `ExecResult`, or the spawn raised an exception. -/
inductive ExecOutcome where
  | ok (r : ExecResult)
  | raised (msg : String)
deriving DecidableEq, Repr

/-- A Python exception as observed by an `except` clause: whether it is a
`PermissionError`, and its string rendering. -/
structure PyExc where
  isPermissionError : Bool
  msg : String
deriving DecidableEq, Repr

/-- The dictionary read from a bundle's `Info.plist` (only the three keys
the program queries; `none` means the key is absent). -/
structure PlistDict where
  CFBundleIdentifier : Option String
  CFBundleName : Option String
  CFBundleDisplayName : Option String
deriving DecidableEq, Repr

/-- Outcome of `plistlib.load` on an existing `Info.plist`. -/
inductive PlistOutcome where
  | ok (d : PlistDict)
  | raised (msg : String)
deriving DecidableEq, Repr

/-- The record `get_app_info` builds: bundle identifier, name and display
name (each `none` models Python `None`). -/
structure AppInfo where
  bundle_id : Option String
  name : Option String
  display_name : Option String
deriving DecidableEq, Repr

/-- An observable side effect of the run. -/
inductive Action where
  /-- A direct in-process deletion attempt (`shutil.rmtree` / `unlink`). -/
  | directDelete (path : String)
  /-- A spawn of `sudo -S cmd...` by `run_with_sudo`. -/
  | sudoSpawn (cmd : List String)
  /-- A spawn of `defaults delete bundle_id` via `subprocess.run`. -/
  | defaultsSpawn (bundle_id : String)
deriving DecidableEq, Repr

/-- The environment of one run: answers of the operating system to the
queries the program makes. -/
structure World where
  /-- `Path.home()` rendered as a string. -/
  home : String
  /-- `Path.exists()` for any path queried. -/
  pathExists : String → Bool
  /-- `directory.glob(pat)`, as the ordered list of full paths returned. -/
  glob : String → String → List String
  /-- `plistlib.load` on an existing `Info.plist` at the given path. -/
  plistLoad : String → PlistOutcome
  /-- `os.access(path, os.W_OK)`. -/
  access_W_OK : String → Bool
  /-- Outcome of a direct deletion (`is_dir`/`rmtree`/`unlink` sequence):
  `none` means it succeeded, `some e` means it raised `e`. -/
  deleteExc : String → Option PyExc
  /-- Outcome of spawning a command (list of argv strings) with the given
  stdin contents, used for the `sudo -S` invocations. -/
  exec : List String → String → ExecOutcome
  /-- Outcome of `subprocess.run(["defaults", "delete", bundle_id], ...)`. -/
  defaultsRun : String → ExecOutcome

/-- The dictionary `remove_application` returns. -/
structure RemovalResult where
  success : Bool
  message : String
  removed_files : List String
  needs_sudo : Bool
deriving DecidableEq, Repr

/-- Accumulated observable output of an operation: the `removed_files`
entries it appended, the `Action`s it performed, the lines it printed. -/
structure Eff where
  removed : List String
  actions : List Action
  logs : List String
deriving DecidableEq, Repr

/-- The empty effect. -/
def Eff.empty : Eff := ⟨[], [], []⟩

/-- Sequential composition of effects. -/
def Eff.seq (a b : Eff) : Eff :=
  ⟨a.removed ++ b.removed, a.actions ++ b.actions, a.logs ++ b.logs⟩

/-- What `remove_application` produces, together with the instance state
it leaves behind (`self.sudo_password`) and its observable effects. -/
structure RemovalOutcome where
  result : RemovalResult
  final_sudo_password : Option String
  actions : List Action
  logs : List String

/-- Value, error and effect of one `run_with_sudo` call. -/
structure SudoResult where
  output : Option String
  error : Option String
  actions : List Action
deriving DecidableEq, Repr

/-! ## The embedded program (`src/key_remover.py`) -/

/-- `self.data_dirs` as built in `__init__` (the two App Store
directories are appended at the end). -/
def data_dirs (home : String) : List String :=
  [ home ++ "/Library/Application Support",
    home ++ "/Library/Preferences",
    home ++ "/Library/Caches",
    home ++ "/Library/Logs",
    home ++ "/Library/Containers",
    home ++ "/Library/Application Scripts",
    home ++ "/Library/Saved Application State",
    "/Library/Application Support",
    "/Library/Preferences",
    "/Library/Caches",
    "/private/var/db/receipts",
    home ++ "/Library/Group Containers" ]

/-- The predicate of the case-insensitive fallback in `find_app_path`:
`item.stem.lower() == app_name.lower()`. -/
def stemMatch (item app_name : String) : Bool :=
  strLower (pyStem item) == strLower app_name

/-- `KeyRemover.find_app_path`: exact path first, then the first
case-insensitive stem match among `/Applications/*.app`. -/
def find_app_path (w : World) (app_name : String) : Option String :=
  if w.pathExists ("/Applications/" ++ app_name ++ ".app") then
    some ("/Applications/" ++ app_name ++ ".app")
  else
    (w.glob "/Applications" "*.app").find? (fun item => stemMatch item app_name)

/-- `KeyRemover.get_app_info`: reads `Contents/Info.plist`, defaulting
name and display name to the bundle path's stem; returns `none` (plus a
printed error line) when the plist is missing or unreadable. -/
def get_app_info (w : World) (app_path : String) : Option AppInfo × List String :=
  if !(w.pathExists (app_path ++ "/Contents/Info.plist")) then (none, [])
  else
    match w.plistLoad (app_path ++ "/Contents/Info.plist") with
    | PlistOutcome.raised e => (none, ["Error reading Info.plist: " ++ e])
    | PlistOutcome.ok d =>
        (some { bundle_id := d.CFBundleIdentifier,
                name := some (d.CFBundleName.getD (pyStem app_path)),
                display_name := some (d.CFBundleDisplayName.getD (pyStem app_path)) },
         [])

/-- `KeyRemover.run_with_sudo`: refuses without a password (checked with
`is None`), otherwise spawns `sudo -S cmd` feeding the password on stdin
and classifies the outcome. -/
def run_with_sudo (w : World) (sudo_password : Option String) (cmd : List String)
    (password : Option String) : SudoResult :=
  if password.isNone && sudo_password.isNone then
    { output := none, error := some "No password provided for sudo operation", actions := [] }
  else
    match w.exec (["sudo", "-S"] ++ cmd) (password.getD (sudo_password.getD "") ++ "\n") with
    | ExecOutcome.raised e =>
        { output := none, error := some ("Error executing sudo command: " ++ e),
          actions := [Action.sudoSpawn (["sudo", "-S"] ++ cmd)] }
    | ExecOutcome.ok r =>
        if r.returncode != 0 then
          if containsSubstr (strLower r.stderr) "incorrect password" then
            { output := none, error := some "Incorrect password",
              actions := [Action.sudoSpawn (["sudo", "-S"] ++ cmd)] }
          else
            { output := none, error := some ("Command failed: " ++ r.stderr),
              actions := [Action.sudoSpawn (["sudo", "-S"] ++ cmd)] }
        else
          { output := some r.stdout, error := none,
            actions := [Action.sudoSpawn (["sudo", "-S"] ++ cmd)] }

/-- `KeyRemover.is_app_store_app`: needs a truthy bundle identifier, then
checks the receipt file in `/private/var/db/receipts`, then (when the
name is truthy and resolves) the `_MASReceipt` marker inside the bundle. -/
def is_app_store_app (w : World) (app_info : Option AppInfo) : Bool :=
  match app_info with
  | none => false
  | some info =>
    if !(pyTruthy info.bundle_id) then false
    else if w.pathExists ("/private/var/db/receipts/" ++ info.bundle_id.getD "" ++ ".plist") then
      true
    else if pyTruthy info.name then
      match find_app_path w (info.name.getD "") with
      | some app_path => w.pathExists (app_path ++ "/Contents/_MASReceipt")
      | none => false
    else false

/-- The glob pattern list `remove_app_files` derives from the app info
(`None` slots filtered out, order preserved). -/
def mkPatterns (info : AppInfo) : List String :=
  ([ if pyTruthy info.bundle_id then some (info.bundle_id.getD "" ++ "*") else none,
     if pyTruthy info.name then some (info.name.getD "" ++ "*") else none,
     if pyTruthy info.display_name then some (info.display_name.getD "" ++ "*") else none,
     if pyTruthy info.name then some ("com.*." ++ info.name.getD "" ++ "*") else none ]).filterMap id

/-- All matches of the sweep, in loop order: existing data directories,
then patterns, then the glob's own order. -/
def sweepMatches (w : World) (patterns : List String) : List String :=
  ((data_dirs w.home).filter (fun d => w.pathExists d)).foldr
    (fun d acc => patterns.foldr (fun p acc2 => w.glob d p ++ acc2) [] ++ acc) []

/-- The body of the innermost sweep loop for one glob match `item`,
including its enclosing `try`/`except` (a raised direct deletion is
caught and printed; the sudo path reports errors by printing; a
privileged item with no password available is skipped silently). -/
def sweepItem (w : World) (is_app_store : Bool) (password sudo_password : Option String)
    (item : String) : Eff :=
  if strStartsWith item "/Library" || strStartsWith item "/private" || is_app_store then
    if pyTruthy password || pyTruthy sudo_password then
      match (run_with_sudo w sudo_password ["rm", "-rf", item] password).error with
      | some e =>
          { removed := [],
            actions := (run_with_sudo w sudo_password ["rm", "-rf", item] password).actions,
            logs := ["Error removing " ++ item ++ " with sudo: " ++ e] }
      | none =>
          { removed := [item ++ " (sudo)"],
            actions := (run_with_sudo w sudo_password ["rm", "-rf", item] password).actions,
            logs := [] }
    else Eff.empty
  else
    match w.deleteExc item with
    | some e =>
        { removed := [], actions := [Action.directDelete item],
          logs := ["Error removing " ++ item ++ ": " ++ e.msg] }
    | none =>
        { removed := [item], actions := [Action.directDelete item], logs := [] }

/-- The whole data-directory sweep: each match processed in order, the
effects concatenated. -/
def sweepAll (w : World) (is_app_store : Bool) (password sudo_password : Option String) :
    List String → Eff
  | [] => Eff.empty
  | item :: rest =>
      (sweepItem w is_app_store password sudo_password item).seq
        (sweepAll w is_app_store password sudo_password rest)

/-- The `defaults delete` phase at the end of `remove_app_files`: run
`defaults delete bundle_id` (appending the domain entry whatever its exit
code), then, for App Store apps with a password available, retry through
sudo; a raised spawn is caught and printed. -/
def defaultsPhase (w : World) (is_app_store : Bool) (password sudo_password : Option String)
    (bundle_id : Option String) : Eff :=
  if pyTruthy bundle_id then
    match w.defaultsRun (bundle_id.getD "") with
    | ExecOutcome.raised e =>
        { removed := [], actions := [Action.defaultsSpawn (bundle_id.getD "")],
          logs := ["Error deleting defaults for " ++ bundle_id.getD "" ++ ": " ++ e] }
    | ExecOutcome.ok _ =>
        Eff.seq
          { removed := ["defaults domain: " ++ bundle_id.getD ""],
            actions := [Action.defaultsSpawn (bundle_id.getD "")], logs := [] }
          (if is_app_store && (pyTruthy password || pyTruthy sudo_password) then
            match (run_with_sudo w sudo_password ["defaults", "delete", bundle_id.getD ""] password).error with
            | none =>
                { removed := ["defaults domain (sudo): " ++ bundle_id.getD ""],
                  actions := (run_with_sudo w sudo_password ["defaults", "delete", bundle_id.getD ""] password).actions,
                  logs := [] }
            | some _ =>
                { removed := [],
                  actions := (run_with_sudo w sudo_password ["defaults", "delete", bundle_id.getD ""] password).actions,
                  logs := [] }
          else Eff.empty)
  else Eff.empty

/-- `KeyRemover.remove_app_files`: empty on falsy app info, else the
sweep over the derived patterns followed by the `defaults` phase. -/
def remove_app_files (w : World) (sudo_password : Option String) (app_info : Option AppInfo)
    (password : Option String) : Eff :=
  match app_info with
  | none => Eff.empty
  | some info =>
      (sweepAll w (is_app_store_app w (some info)) password sudo_password
          (sweepMatches w (mkPatterns info))).seq
        (defaultsPhase w (is_app_store_app w (some info)) password sudo_password info.bundle_id)

/-- The final bundle-deletion step of `remove_application` (everything
after the sweep), given the removed-files list accumulated so far.
Returns the result dictionary and the actions this step performed. -/
def bundlePhase (w : World) (is_app_store : Bool) (password sudo_password : Option String)
    (app_name app_path : String) (removed_so_far : List String) :
    RemovalResult × List Action :=
  if is_app_store || !(w.access_W_OK app_path) then
    if !(pyTruthy password) && !(pyTruthy sudo_password) then
      ({ success := false,
         message := "This application requires administrator privileges to remove.",
         removed_files := removed_so_far, needs_sudo := true }, [])
    else
      match (run_with_sudo w sudo_password ["rm", "-rf", app_path] password).error with
      | some e =>
          ({ success := false,
             message := "Error removing application with sudo: " ++ e,
             removed_files := removed_so_far, needs_sudo := true },
           (run_with_sudo w sudo_password ["rm", "-rf", app_path] password).actions)
      | none =>
          ({ success := true,
             message := "Successfully removed " ++ app_name ++ " and its associated files",
             removed_files := removed_so_far ++ [app_path ++ " (sudo)"],
             needs_sudo := false },
           (run_with_sudo w sudo_password ["rm", "-rf", app_path] password).actions)
  else
    match w.deleteExc app_path with
    | some e =>
        if e.isPermissionError || containsSubstr e.msg "Permission denied" then
          ({ success := false,
             message := "Permission denied. This application requires administrator privileges to remove.",
             removed_files := removed_so_far, needs_sudo := true },
           [Action.directDelete app_path])
        else
          ({ success := false,
             message := "Error removing application: " ++ e.msg,
             removed_files := removed_so_far, needs_sudo := false },
           [Action.directDelete app_path])
    | none =>
        ({ success := true,
           message := "Successfully removed " ++ app_name ++ " and its associated files",
           removed_files := removed_so_far ++ [app_path], needs_sudo := false },
         [Action.directDelete app_path])

/-- The update `if password: self.sudo_password = password` performed at
the top of `remove_application`. -/
def updatedSudoPassword (password sudo_password0 : Option String) : Option String :=
  if pyTruthy password then password else sudo_password0

/-- The found-application branch of `remove_application`. -/
def removeFound (w : World) (sp : Option String) (app_name : String)
    (password : Option String) (app_path : String) : RemovalOutcome :=
  { result :=
      (bundlePhase w (is_app_store_app w (get_app_info w app_path).1) password sp
        app_name app_path
        (remove_app_files w sp (get_app_info w app_path).1 password).removed).1,
    final_sudo_password := sp,
    actions :=
      (remove_app_files w sp (get_app_info w app_path).1 password).actions ++
      (bundlePhase w (is_app_store_app w (get_app_info w app_path).1) password sp
        app_name app_path
        (remove_app_files w sp (get_app_info w app_path).1 password).removed).2,
    logs :=
      (get_app_info w app_path).2 ++
      (remove_app_files w sp (get_app_info w app_path).1 password).logs }

/-- `KeyRemover.remove_application`: cache a truthy password, locate the
bundle (returning not-found when absent), sweep associated files, then
delete the bundle itself. -/
def remove_application (w : World) (sudo_password0 : Option String) (app_name : String)
    (password : Option String) : RemovalOutcome :=
  match find_app_path w app_name with
  | none =>
      { result :=
          { success := false,
            message := "Application \x27" ++ app_name ++ "\x27 not found in /Applications",
            removed_files := [], needs_sudo := false },
        final_sudo_password := updatedSudoPassword password sudo_password0,
        actions := [], logs := [] }
  | some app_path =>
      removeFound w (updatedSudoPassword password sudo_password0) app_name password app_path

/-! ## Basic lemmas about effects -/

@[simp]
lemma Eff.seq_removed (a b : Eff) : (a.seq b).removed = a.removed ++ b.removed := rfl

@[simp]
lemma Eff.seq_actions (a b : Eff) : (a.seq b).actions = a.actions ++ b.actions := rfl

@[simp]
lemma Eff.seq_logs (a b : Eff) : (a.seq b).logs = a.logs ++ b.logs := rfl

@[simp]
lemma Eff.empty_removed : (Eff.empty).removed = [] := rfl

@[simp]
lemma Eff.empty_actions : (Eff.empty).actions = [] := rfl

@[simp]
lemma Eff.empty_logs : (Eff.empty).logs = [] := rfl

/-- The generic-failure message of `run_with_sudo` can never collide with
its incorrect-password message. -/
lemma command_failed_ne (s : String) : ("Command failed: " ++ s) ≠ "Incorrect password" := by
  intro h
  have h2 := congrArg String.data h
  simp [String.data_append] at h2

/-! ## Concrete example environments (used by witnesses and
counterexamples) -/

/-- A world in which nothing exists at all. -/
def wAbsent : World :=
  { home := "/Users/u",
    pathExists := fun _ => false,
    glob := fun _ _ => [],
    plistLoad := fun _ => PlistOutcome.raised "unreadable",
    access_W_OK := fun _ => false,
    deleteExc := fun _ => none,
    exec := fun _ _ => ExecOutcome.ok ⟨0, "", ""⟩,
    defaultsRun := fun _ => ExecOutcome.ok ⟨0, "", ""⟩ }

/-- A world holding exactly one writable bundle `/Applications/Foo.app`
with no readable metadata; every operation succeeds. -/
def wPlain : World :=
  { home := "/Users/u",
    pathExists := fun p => p == "/Applications/Foo.app",
    glob := fun _ _ => [],
    plistLoad := fun _ => PlistOutcome.raised "unreadable",
    access_W_OK := fun _ => true,
    deleteExc := fun _ => none,
    exec := fun _ _ => ExecOutcome.ok ⟨0, "", ""⟩,
    defaultsRun := fun _ => ExecOutcome.ok ⟨0, "", ""⟩ }

/-- A world whose privileged commands all fail complaining about the
password. -/
def wSudoFail : World :=
  { home := "/Users/u",
    pathExists := fun _ => false,
    glob := fun _ _ => [],
    plistLoad := fun _ => PlistOutcome.raised "unreadable",
    access_W_OK := fun _ => false,
    deleteExc := fun _ => none,
    exec := fun _ _ => ExecOutcome.ok ⟨1, "", "Sudo: Incorrect Password attempt"⟩,
    defaultsRun := fun _ => ExecOutcome.ok ⟨0, "", ""⟩ }

/-! ## C4: the not-found branch -/

/-- C4: when the application name resolves to no bundle, the result has
success false, the not-found message, an empty removed-files list and
needs_sudo false, and no deletion action and no log line is produced. -/
theorem not_found_result (w : World) (sp0 : Option String) (app_name : String)
    (password : Option String) (hfind : find_app_path w app_name = none) :
    (remove_application w sp0 app_name password).result.success = false ∧
    (remove_application w sp0 app_name password).result.message =
      "Application \x27" ++ app_name ++ "\x27 not found in /Applications" ∧
    (remove_application w sp0 app_name password).result.removed_files = [] ∧
    (remove_application w sp0 app_name password).result.needs_sudo = false ∧
    (remove_application w sp0 app_name password).actions = [] ∧
    (remove_application w sp0 app_name password).logs = [] := by
  simp [remove_application, hfind]

/-- Witness for C4 at a concrete empty world. -/
theorem not_found_result_witness :
    find_app_path wAbsent "Ghost" = none ∧
    (remove_application wAbsent none "Ghost" none).result.removed_files = [] ∧
    (remove_application wAbsent none "Ghost" none).actions = [] :=
  ⟨rfl, (not_found_result wAbsent none "Ghost" none rfl).2.2.1,
    (not_found_result wAbsent none "Ghost" none rfl).2.2.2.2.1⟩

/-! ## C8: lifetime of the cached password -/

/-- C8 (counterexample): a password supplied to `remove_application` is
still stored in the instance state after the call returns (the run
succeeds, yet `sudo_password` holds the supplied password afterwards). -/
theorem password_cache_persists_counterexample :
    (remove_application wPlain none "Foo" (some "hunter2")).final_sudo_password =
      some "hunter2" ∧
    (remove_application wPlain none "Foo" (some "hunter2")).result.success = true := by
  constructor
  · decide
  · decide

/-- C8 (amended): a truthy password supplied to `remove_application` is
written to `self.sudo_password` and remains there after the call returns;
with a falsy password the previously cached value survives unchanged. -/
theorem sudo_password_persists (w : World) (sp0 : Option String) (app_name : String)
    (password : Option String) :
    (remove_application w sp0 app_name password).final_sudo_password =
      (if pyTruthy password then password else sp0) := by
  unfold remove_application
  cases h : find_app_path w app_name <;> simp [removeFound, updatedSudoPassword]

/-! ## C7: classification of `run_with_sudo` outcomes -/

/-- C7: with neither an explicit nor a cached password, `run_with_sudo`
returns the no-password error without spawning anything; otherwise, when
the spawned command completes with nonzero exit, the error is
"Incorrect password" exactly when the lowered stderr contains
"incorrect password" and the generic failure message otherwise, and a
zero exit returns the command output with no error. -/
theorem run_with_sudo_spec (w : World) (sp : Option String) (cmd : List String)
    (password : Option String) :
    (password = none → sp = none →
      run_with_sudo w sp cmd password =
        { output := none, error := some "No password provided for sudo operation",
          actions := [] }) ∧
    (∀ r : ExecResult, password.isSome ∨ sp.isSome →
      w.exec (["sudo", "-S"] ++ cmd) (password.getD (sp.getD "") ++ "\n") =
        ExecOutcome.ok r →
      (r.returncode ≠ 0 →
        (run_with_sudo w sp cmd password).output = none ∧
        ((run_with_sudo w sp cmd password).error = some "Incorrect password" ↔
          containsSubstr (strLower r.stderr) "incorrect password" = true) ∧
        (containsSubstr (strLower r.stderr) "incorrect password" = false →
          (run_with_sudo w sp cmd password).error =
            some ("Command failed: " ++ r.stderr))) ∧
      (r.returncode = 0 →
        (run_with_sudo w sp cmd password).output = some r.stdout ∧
        (run_with_sudo w sp cmd password).error = none)) := by
  constructor
  · intro hp hs
    subst hp; subst hs
    rfl
  · intro r hps hexec
    simp only [List.cons_append, List.nil_append] at hexec
    have hcond : (password.isNone && sp.isNone) = false := by
      rcases hps with h | h <;> cases password <;> cases sp <;> simp_all
    constructor
    · intro hrc
      have hrc2 : (r.returncode != 0) = true := by simpa using hrc
      by_cases hsub : containsSubstr (strLower r.stderr) "incorrect password" = true
      · simp [run_with_sudo, hcond, hexec, hrc2, hsub]
      · have hne := command_failed_ne r.stderr
        simp [run_with_sudo, hcond, hexec, hrc2, hsub, hne]
    · intro hrc
      have hrc2 : (r.returncode != 0) = false := by simpa using hrc
      simp [run_with_sudo, hcond, hexec, hrc2]

/-- Witness for C7: a concrete failing privileged command whose stderr
mentions the password is classified as "Incorrect password". -/
theorem run_with_sudo_spec_witness :
    (run_with_sudo wSudoFail none ["rm", "-rf", "/tmp/x"] (some "pw")).error =
      some "Incorrect password" := by
  have h := (run_with_sudo_spec wSudoFail none ["rm", "-rf", "/tmp/x"] (some "pw")).2
    ⟨1, "", "Sudo: Incorrect Password attempt"⟩ (Or.inl rfl) rfl
  exact ((h.1 (by decide)).2.1).2 (by decide)

/-! ## C5: the locator -/

/-- A successful `List.find?` splits its list at the first satisfying
element. -/
lemma find_first_split {α : Type} (f : α → Bool) :
    ∀ (l : List α) (q : α), l.find? f = some q →
      ∃ l1 l2, l = l1 ++ q :: l2 ∧ f q = true ∧ ∀ y ∈ l1, f y = false := by
  intro l
  induction l with
  | nil => intro q h; simp [List.find?] at h
  | cons a as ih =>
    intro q h
    by_cases ha : f a = true
    · rw [List.find?_cons_of_pos _ ha] at h
      obtain rfl : a = q := by simpa using h
      exact ⟨[], as, rfl, ha, by simp⟩
    · rw [List.find?_cons_of_neg _ ha] at h
      obtain ⟨l1, l2, hsplit, hq, hnone⟩ := ih q h
      refine ⟨a :: l1, l2, by simp [hsplit], hq, ?_⟩
      intro y hy
      rcases List.mem_cons.1 hy with rfl | hy2
      · simpa using ha
      · exact hnone y hy2

/-- A world containing a single differently-cased bundle
`/Applications/FOO.app`, visible only through glob enumeration. -/
def wCase : World :=
  { home := "/Users/u",
    pathExists := fun _ => false,
    glob := fun d pat => if d == "/Applications" && pat == "*.app" then ["/Applications/FOO.app"] else [],
    plistLoad := fun _ => PlistOutcome.raised "unreadable",
    access_W_OK := fun _ => true,
    deleteExc := fun _ => none,
    exec := fun _ _ => ExecOutcome.ok ⟨0, "", ""⟩,
    defaultsRun := fun _ => ExecOutcome.ok ⟨0, "", ""⟩ }

/-- C5: `find_app_path` returns the exact case-sensitive path when it
exists; otherwise it returns `none` exactly when no enumerated bundle
stem matches case-insensitively, and a returned bundle is the first
case-insensitive match of the enumeration (a single path). -/
theorem find_app_path_spec (w : World) (app_name : String) :
    (w.pathExists ("/Applications/" ++ app_name ++ ".app") = true →
      find_app_path w app_name = some ("/Applications/" ++ app_name ++ ".app")) ∧
    (w.pathExists ("/Applications/" ++ app_name ++ ".app") = false →
      ((find_app_path w app_name = none ↔
        ∀ item ∈ w.glob "/Applications" "*.app", stemMatch item app_name = false) ∧
      (∀ q, find_app_path w app_name = some q →
        ∃ l1 l2, w.glob "/Applications" "*.app" = l1 ++ q :: l2 ∧
          stemMatch q app_name = true ∧ ∀ y ∈ l1, stemMatch y app_name = false))) := by
  constructor
  · intro h
    simp [find_app_path, h]
  · intro h
    constructor
    · simp [find_app_path, h, List.find?_eq_none]
    · intro q hq
      simp only [find_app_path, h, if_false, Bool.false_eq_true] at hq
      exact find_first_split _ _ q hq

/-- Witness for C5: the lookup of "foo" resolves the differently-cased
bundle through the fallback, as the first (only) match. -/
theorem find_app_path_spec_witness :
    find_app_path wCase "foo" = some "/Applications/FOO.app" ∧
    ∃ l1 l2, wCase.glob "/Applications" "*.app" = l1 ++ "/Applications/FOO.app" :: l2 ∧
      stemMatch "/Applications/FOO.app" "foo" = true ∧
      ∀ y ∈ l1, stemMatch y "foo" = false := by
  refine ⟨by decide, ?_⟩
  exact ((find_app_path_spec wCase "foo").2 (by decide)).2 "/Applications/FOO.app" (by decide)

/-! ## C3: pattern derivation and the empty-pattern case -/

/-- With no patterns the sweep has no matches. -/
lemma sweepMatches_nil (w : World) : sweepMatches w [] = [] := by
  unfold sweepMatches
  generalize ((data_dirs w.home).filter fun d => w.pathExists d) = l
  induction l with
  | nil => rfl
  | cons d ds ih => simp [ih]

/-- An app info without a truthy bundle identifier is never classified as
an App Store install. -/
lemma is_app_store_falsy (w : World) (info : AppInfo)
    (h : pyTruthy info.bundle_id = false) : is_app_store_app w (some info) = false := by
  simp [is_app_store_app, h]

/-- A world with one writable bundle whose metadata has no bundle
identifier and empty name and display name strings. -/
def wEmptyInfo : World :=
  { home := "/Users/u",
    pathExists := fun p =>
      p == "/Applications/Foo.app" || p == "/Applications/Foo.app/Contents/Info.plist",
    glob := fun _ _ => [],
    plistLoad := fun _ => PlistOutcome.ok ⟨none, some "", some ""⟩,
    access_W_OK := fun _ => true,
    deleteExc := fun _ => none,
    exec := fun _ _ => ExecOutcome.ok ⟨0, "", ""⟩,
    defaultsRun := fun _ => ExecOutcome.ok ⟨0, "", ""⟩ }

/-- C3: the derived glob patterns are exactly the bundle-identifier,
name, display-name and reverse-domain patterns in that order, each
dropped when its source field is falsy; when all three fields are falsy
the pattern list is empty, `remove_app_files` does nothing at all, and
`remove_application` still attempts the deletion of the bundle itself. -/
theorem patterns_spec (info : AppInfo) :
    (mkPatterns info =
      (if pyTruthy info.bundle_id then [info.bundle_id.getD "" ++ "*"] else []) ++
      (if pyTruthy info.name then [info.name.getD "" ++ "*"] else []) ++
      (if pyTruthy info.display_name then [info.display_name.getD "" ++ "*"] else []) ++
      (if pyTruthy info.name then ["com.*." ++ info.name.getD "" ++ "*"] else [])) ∧
    (pyTruthy info.bundle_id = false → pyTruthy info.name = false →
      pyTruthy info.display_name = false →
      mkPatterns info = [] ∧
      (∀ w sp pw, remove_app_files w sp (some info) pw = Eff.empty) ∧
      (∀ w sp0 app_name pw p, find_app_path w app_name = some p →
        (get_app_info w p).1 = some info → w.access_W_OK p = true →
        (remove_application w sp0 app_name pw).actions = [Action.directDelete p])) := by
  constructor
  · by_cases h1 : pyTruthy info.bundle_id <;>
      by_cases h2 : pyTruthy info.name <;>
      by_cases h3 : pyTruthy info.display_name <;>
      simp [mkPatterns, h1, h2, h3]
  · intro h1 h2 h3
    have hpat : mkPatterns info = [] := by simp [mkPatterns, h1, h2, h3]
    have heff : ∀ w sp pw, remove_app_files w sp (some info) pw = Eff.empty := by
      intro w sp pw
      simp only [remove_app_files]
      rw [hpat, sweepMatches_nil]
      simp [sweepAll, defaultsPhase, h1, Eff.seq, Eff.empty]
    refine ⟨hpat, heff, ?_⟩
    intro w sp0 app_name pw p hfind hinfo hacc
    have hAS : is_app_store_app w (some info) = false := is_app_store_falsy w info h1
    have heffw := heff w (updatedSudoPassword pw sp0) pw
    simp only [remove_application, hfind, removeFound, hinfo, heffw, hAS,
      Eff.empty_actions, List.nil_append]
    cases hd : w.deleteExc p with
    | none => simp [bundlePhase, hacc, hd]
    | some e =>
        by_cases hperm : (e.isPermissionError || containsSubstr e.msg "Permission denied") = true <;>
          simp [bundlePhase, hacc, hd, hperm]

/-- Witness for C3: an app whose plist yields no bundle identifier and
empty names produces no patterns, and the bundle deletion is still the
single performed action. -/
theorem patterns_spec_witness :
    mkPatterns ⟨none, some "", some ""⟩ = [] ∧
    (remove_application wEmptyInfo none "Foo" none).actions =
      [Action.directDelete "/Applications/Foo.app"] := by
  have h := (patterns_spec ⟨none, some "", some ""⟩).2 rfl rfl rfl
  exact ⟨h.1, h.2.2 wEmptyInfo none "Foo" none "/Applications/Foo.app"
    (by decide) (by decide) (by decide)⟩

/-! ## C10: the preference-domain entry is reported regardless of the
command's exit status -/

/-- A world whose `defaults delete` runs complete but fail (nonzero
exit), with an empty sweep. -/
def wDefaultsFail : World :=
  { home := "/Users/u",
    pathExists := fun _ => false,
    glob := fun _ _ => [],
    plistLoad := fun _ => PlistOutcome.raised "unreadable",
    access_W_OK := fun _ => true,
    deleteExc := fun _ => none,
    exec := fun _ _ => ExecOutcome.ok ⟨1, "", "error"⟩,
    defaultsRun := fun _ => ExecOutcome.ok ⟨1, "", "Domain com.foo does not exist"⟩ }

/-- C10: whenever the app info has a truthy bundle identifier and the
spawned `defaults delete` command completes (with any exit code, so also
when it failed), `remove_app_files` reports the preference-domain entry:
its removed list is the sweep's removed list followed directly by the
domain entry. -/
theorem defaults_over_report (w : World) (sp pw : Option String) (info : AppInfo)
    (bid : String) (r : ExecResult)
    (hbid : info.bundle_id = some bid) (htruthy : pyTruthy info.bundle_id = true)
    (hrun : w.defaultsRun bid = ExecOutcome.ok r) :
    ∃ rest, (remove_app_files w sp (some info) pw).removed =
      (sweepAll w (is_app_store_app w (some info)) pw sp
        (sweepMatches w (mkPatterns info))).removed ++
      ("defaults domain: " ++ bid) :: rest := by
  have hb : pyTruthy (some bid) = true := by rw [hbid] at htruthy; exact htruthy
  cases hretry : (is_app_store_app w (some info) && (pyTruthy pw || pyTruthy sp)) with
  | false =>
      refine ⟨[], ?_⟩
      simp [remove_app_files, defaultsPhase, hbid, htruthy, hb, hrun, hretry]
  | true =>
      cases herr : (run_with_sudo w sp ["defaults", "delete", bid] pw).error with
      | none =>
          refine ⟨["defaults domain (sudo): " ++ bid], ?_⟩
          simp [remove_app_files, defaultsPhase, hbid, htruthy, hb, hrun, hretry, herr]
      | some e =>
          refine ⟨[], ?_⟩
          simp [remove_app_files, defaultsPhase, hbid, htruthy, hb, hrun, hretry, herr]

/-- Witness for C10: the domain entry is reported although the concrete
`defaults delete` run exited with status 1. -/
theorem defaults_over_report_witness :
    ("defaults domain: " ++ "com.foo") ∈
      (remove_app_files wDefaultsFail none (some ⟨some "com.foo", some "", some ""⟩) none).removed := by
  obtain ⟨rest, heq⟩ := defaults_over_report wDefaultsFail none none
    ⟨some "com.foo", some "", some ""⟩ "com.foo" ⟨1, "", "Domain com.foo does not exist"⟩
    rfl (by decide) rfl
  rw [heq]
  exact List.mem_append_right _ (List.mem_cons_self _ _)

/-! ## C6: App-Store detection (corrected) -/

/-- A world holding a bundle `/Applications/Foo.app` that carries the
`_MASReceipt` marker. -/
def wMarkerNoBid : World :=
  { home := "/Users/u",
    pathExists := fun p =>
      p == "/Applications/Foo.app" || p == "/Applications/Foo.app/Contents/_MASReceipt",
    glob := fun _ _ => [],
    plistLoad := fun _ => PlistOutcome.raised "unreadable",
    access_W_OK := fun _ => true,
    deleteExc := fun _ => none,
    exec := fun _ _ => ExecOutcome.ok ⟨0, "", ""⟩,
    defaultsRun := fun _ => ExecOutcome.ok ⟨0, "", ""⟩ }

/-- A world holding an App Store receipt for `com.foo` in the receipts
directory. -/
def wReceipt : World :=
  { home := "/Users/u",
    pathExists := fun p => p == "/private/var/db/receipts/com.foo.plist",
    glob := fun _ _ => [],
    plistLoad := fun _ => PlistOutcome.raised "unreadable",
    access_W_OK := fun _ => true,
    deleteExc := fun _ => none,
    exec := fun _ _ => ExecOutcome.ok ⟨0, "", ""⟩,
    defaultsRun := fun _ => ExecOutcome.ok ⟨0, "", ""⟩ }

/-- C6 (counterexample): an application whose info carries no bundle
identifier is not classified as an App Store install even though the
`_MASReceipt` marker exists inside its (resolvable) bundle, so the
claimed equivalence fails at this input. -/
theorem is_app_store_counterexample :
    find_app_path wMarkerNoBid "Foo" = some "/Applications/Foo.app" ∧
    ¬ (is_app_store_app wMarkerNoBid (some ⟨none, some "Foo", some "Foo"⟩) = true ↔
      ((∃ bid, (AppInfo.mk none (some "Foo") (some "Foo")).bundle_id = some bid ∧
          wMarkerNoBid.pathExists ("/private/var/db/receipts/" ++ bid ++ ".plist") = true) ∨
        wMarkerNoBid.pathExists ("/Applications/Foo.app" ++ "/Contents/_MASReceipt") = true)) := by
  refine ⟨by decide, ?_⟩
  intro h
  have hmk : is_app_store_app wMarkerNoBid (some ⟨none, some "Foo", some "Foo"⟩) = true :=
    h.mpr (Or.inr (by decide))
  exact absurd hmk (by decide)

/-- C6 (amended): for an app info with a truthy bundle identifier,
App-Store classification holds exactly when the receipt file named by
the bundle identifier exists in the receipts directory, or the name is
truthy, resolves to a bundle path, and the `_MASReceipt` marker exists
inside that bundle. -/
theorem is_app_store_iff (w : World) (info : AppInfo)
    (hbid : pyTruthy info.bundle_id = true) :
    (is_app_store_app w (some info) = true ↔
      (w.pathExists ("/private/var/db/receipts/" ++ info.bundle_id.getD "" ++ ".plist") = true ∨
        (pyTruthy info.name = true ∧
          ∃ q, find_app_path w (info.name.getD "") = some q ∧
            w.pathExists (q ++ "/Contents/_MASReceipt") = true))) := by
  by_cases hrec : w.pathExists ("/private/var/db/receipts/" ++ info.bundle_id.getD "" ++ ".plist") = true
  · simp [is_app_store_app, hbid, hrec]
  · by_cases hnm : pyTruthy info.name = true
    · cases hf : find_app_path w (info.name.getD "") with
      | none => simp [is_app_store_app, hbid, hrec, hnm, hf]
      | some q => simp [is_app_store_app, hbid, hrec, hnm, hf]
    · simp [is_app_store_app, hbid, hrec, hnm]

/-- Witness for the amended C6: a concrete receipt file makes the
classification positive. -/
theorem is_app_store_iff_witness :
    is_app_store_app wReceipt (some ⟨some "com.foo", some "", some ""⟩) = true :=
  (is_app_store_iff wReceipt ⟨some "com.foo", some "", some ""⟩ (by decide)).mpr
    (Or.inl (by decide))

/-! ## Shape of the actions each phase can perform -/

/-- Every action of a `run_with_sudo` call is the spawn of its own sudo
command. -/
lemma run_with_sudo_actions (w : World) (sp : Option String) (cmd : List String)
    (pw : Option String) :
    ∀ a ∈ (run_with_sudo w sp cmd pw).actions, a = Action.sudoSpawn (["sudo", "-S"] ++ cmd) := by
  intro a ha
  unfold run_with_sudo at ha
  split at ha
  · simp at ha
  · split at ha
    · simpa using ha
    · split at ha
      · split at ha <;> simpa using ha
      · simpa using ha

/-- Every action of one sweep-item step is a direct deletion of that item
or the spawn of the sudo `rm` for that item. -/
lemma sweepItem_actions (w : World) (isAS : Bool) (pw sp : Option String) (item : String) :
    ∀ a ∈ (sweepItem w isAS pw sp item).actions,
      a = Action.directDelete item ∨ a = Action.sudoSpawn ["sudo", "-S", "rm", "-rf", item] := by
  intro a ha
  unfold sweepItem at ha
  split at ha
  · split at ha
    · split at ha <;>
        · right
          simpa using run_with_sudo_actions w sp ["rm", "-rf", item] pw a ha
    · simp [Eff.empty] at ha
  · split at ha <;> (simp at ha; simp [ha])

/-- Every action of the whole sweep belongs to one of its matches. -/
lemma sweepAll_actions (w : World) (isAS : Bool) (pw sp : Option String) :
    ∀ (items : List String), ∀ a ∈ (sweepAll w isAS pw sp items).actions,
      ∃ item ∈ items,
        a = Action.directDelete item ∨ a = Action.sudoSpawn ["sudo", "-S", "rm", "-rf", item] := by
  intro items
  induction items with
  | nil => intro a ha; simp [sweepAll, Eff.empty] at ha
  | cons b bs ih =>
    intro a ha
    simp only [sweepAll, Eff.seq_actions] at ha
    rcases List.mem_append.1 ha with h | h
    · exact ⟨b, List.mem_cons_self b bs, sweepItem_actions w isAS pw sp b a h⟩
    · obtain ⟨item, hmem, hshape⟩ := ih a h
      exact ⟨item, List.mem_cons_of_mem b hmem, hshape⟩

/-- Every action of the defaults phase is the `defaults delete` spawn or
the sudo `defaults delete` spawn for the bundle identifier. -/
lemma defaultsPhase_actions (w : World) (isAS : Bool) (pw sp : Option String)
    (bid : Option String) :
    ∀ a ∈ (defaultsPhase w isAS pw sp bid).actions,
      a = Action.defaultsSpawn (bid.getD "") ∨
        a = Action.sudoSpawn ["sudo", "-S", "defaults", "delete", bid.getD ""] := by
  intro a ha
  unfold defaultsPhase at ha
  split at ha
  · split at ha
    · simp at ha; simp [ha]
    · simp only [Eff.seq_actions] at ha
      rcases List.mem_append.1 ha with h | h
      · simp at h; simp [h]
      · split at h
        · split at h <;>
            · right
              simpa using run_with_sudo_actions w sp ["defaults", "delete", bid.getD ""] pw a h
        · simp [Eff.empty] at h
  · simp [Eff.empty] at ha

/-! ## C9: privileged sweep matches -/

/-- C9: a sweep match under a system root, or any match of an App-Store
app, is handled only through the privileged path: without a password the
item is skipped silently (no removal entry, no action, no log), with a
password every action for it is the sudo `rm` spawn; and skipped
privileged matches do not set the needs-sudo flag of the final result
(when the bundle itself is directly deletable the overall run succeeds
with needs_sudo false). -/
theorem privileged_sweep_skip (w : World) (is_app_store : Bool)
    (password sudo_password : Option String) (item : String)
    (hcond : strStartsWith item "/Library" = true ∨ strStartsWith item "/private" = true ∨
      is_app_store = true) :
    (pyTruthy password = false → pyTruthy sudo_password = false →
      sweepItem w is_app_store password sudo_password item = Eff.empty) ∧
    ((pyTruthy password || pyTruthy sudo_password) = true →
      ∀ a ∈ (sweepItem w is_app_store password sudo_password item).actions,
        a = Action.sudoSpawn ["sudo", "-S", "rm", "-rf", item]) ∧
    (∀ sp0 app_name p, find_app_path w app_name = some p →
      pyTruthy password = false → pyTruthy sp0 = false →
      is_app_store_app w (get_app_info w p).1 = false →
      w.access_W_OK p = true → w.deleteExc p = none →
      (remove_application w sp0 app_name password).result.needs_sudo = false ∧
      (remove_application w sp0 app_name password).result.success = true) := by
  have hsys : (strStartsWith item "/Library" || strStartsWith item "/private" ||
      is_app_store) = true := by
    rcases hcond with h | h | h <;> simp [h]
  refine ⟨?_, ?_, ?_⟩
  · intro h1 h2
    simp [sweepItem, hsys, h1, h2]
  · intro hpwd a ha
    rw [sweepItem, if_pos hsys, if_pos hpwd] at ha
    split at ha <;>
      · simpa using run_with_sudo_actions w sudo_password ["rm", "-rf", item] password a ha
  · intro sp0 app_name p hfind hpw hsp hAS hacc hdel
    have hsp2 : updatedSudoPassword password sp0 = sp0 := by
      simp [updatedSudoPassword, hpw]
    simp [remove_application, hfind, removeFound, hsp2, hAS, bundlePhase, hacc, hdel]

/-- Witness for C9 at a concrete privileged path and a concrete
passwordless successful run. -/
theorem privileged_sweep_skip_witness :
    sweepItem wPlain false none none "/Library/Preferences/com.foo.plist" = Eff.empty ∧
    (remove_application wPlain none "Foo" none).result.needs_sudo = false := by
  have h := privileged_sweep_skip wPlain false none none "/Library/Preferences/com.foo.plist"
    (Or.inl (by decide))
  exact ⟨h.1 rfl rfl,
    (h.2.2 none "Foo" "/Applications/Foo.app" (by decide) rfl rfl (by decide)
      (by decide) (by decide)).1⟩

/-! ## C2: elevated privileges required but no password available -/

/-- C2: when the found application needs elevated privileges (App-Store
install or unwritable bundle) and neither the call's password nor the
cached one is truthy, the run returns failure with the needs-sudo flag
and message, performs no action beyond the data-file sweep, and in
particular never deletes the bundle itself (no direct deletion of the
bundle path and no sudo `rm` spawn for it, given the bundle path is not
itself a sweep match). -/
theorem needs_sudo_without_password (w : World) (sp0 : Option String) (app_name : String)
    (password : Option String) (p : String)
    (hfind : find_app_path w app_name = some p)
    (hpw : pyTruthy password = false) (hsp : pyTruthy sp0 = false)
    (hpriv : is_app_store_app w (get_app_info w p).1 = true ∨ w.access_W_OK p = false) :
    (remove_application w sp0 app_name password).result.success = false ∧
    (remove_application w sp0 app_name password).result.needs_sudo = true ∧
    (remove_application w sp0 app_name password).result.message =
      "This application requires administrator privileges to remove." ∧
    (remove_application w sp0 app_name password).actions =
      (remove_app_files w sp0 (get_app_info w p).1 password).actions ∧
    ((get_app_info w p).1 = none → (remove_application w sp0 app_name password).actions = []) ∧
    (∀ info, (get_app_info w p).1 = some info →
      p ∉ sweepMatches w (mkPatterns info) →
      ∀ a ∈ (remove_application w sp0 app_name password).actions,
        a ≠ Action.directDelete p ∧ a ≠ Action.sudoSpawn ["sudo", "-S", "rm", "-rf", p]) := by
  have hsp2 : updatedSudoPassword password sp0 = sp0 := by
    simp [updatedSudoPassword, hpw]
  have hcnd : (is_app_store_app w (get_app_info w p).1 || !(w.access_W_OK p)) = true := by
    rcases hpriv with h | h <;> simp [h]
  have hnp : (!(pyTruthy password) && !(pyTruthy sp0)) = true := by simp [hpw, hsp]
  have hbp : bundlePhase w (is_app_store_app w (get_app_info w p).1) password sp0 app_name p
      (remove_app_files w sp0 (get_app_info w p).1 password).removed =
      ({ success := false,
         message := "This application requires administrator privileges to remove.",
         removed_files := (remove_app_files w sp0 (get_app_info w p).1 password).removed,
         needs_sudo := true }, []) := by
    unfold bundlePhase
    rw [if_pos hcnd, if_pos hnp]
  have hact : (remove_application w sp0 app_name password).actions =
      (remove_app_files w sp0 (get_app_info w p).1 password).actions := by
    simp [remove_application, hfind, removeFound, hsp2, hbp]
  refine ⟨?_, ?_, ?_, hact, ?_, ?_⟩
  · simp [remove_application, hfind, removeFound, hsp2, hbp]
  · simp [remove_application, hfind, removeFound, hsp2, hbp]
  · simp [remove_application, hfind, removeFound, hsp2, hbp]
  · intro hnone
    rw [hact, hnone]
    rfl
  · intro info hinfo hnotin a ha
    rw [hact, hinfo] at ha
    simp only [remove_app_files, Eff.seq_actions] at ha
    rcases List.mem_append.1 ha with h | h
    · obtain ⟨item, hmem, hsh⟩ := sweepAll_actions w _ password sp0 _ a h
      constructor
      · intro heq
        rcases hsh with h1 | h1
        · have h2 : Action.directDelete p = Action.directDelete item := heq.symm.trans h1
          have h3 : p = item := by injection h2
          exact hnotin (h3 ▸ hmem)
        · rw [heq] at h1
          simp at h1
      · intro heq
        rcases hsh with h1 | h1
        · rw [heq] at h1
          simp at h1
        · have h2 : Action.sudoSpawn ["sudo", "-S", "rm", "-rf", p] =
              Action.sudoSpawn ["sudo", "-S", "rm", "-rf", item] := heq.symm.trans h1
          have h3 : ["sudo", "-S", "rm", "-rf", p] = ["sudo", "-S", "rm", "-rf", item] := by
            injection h2
          have h4 : p = item := by simpa using h3
          exact hnotin (h4 ▸ hmem)
    · have hsh := defaultsPhase_actions w _ password sp0 info.bundle_id a h
      constructor
      · intro heq
        rcases hsh with h1 | h1 <;> (rw [heq] at h1; simp at h1)
      · intro heq
        rcases hsh with h1 | h1 <;> (rw [heq] at h1; simp at h1)

/-- A world with an unwritable bundle `/Applications/Foo.app` (so its
removal needs elevated privileges) and an empty sweep. -/
def wNoWrite : World :=
  { home := "/Users/u",
    pathExists := fun p => p == "/Applications/Foo.app",
    glob := fun _ _ => [],
    plistLoad := fun _ => PlistOutcome.raised "unreadable",
    access_W_OK := fun _ => false,
    deleteExc := fun _ => none,
    exec := fun _ _ => ExecOutcome.ok ⟨0, "", ""⟩,
    defaultsRun := fun _ => ExecOutcome.ok ⟨0, "", ""⟩ }

/-- Witness for C2: the concrete passwordless run on an unwritable
bundle fails with needs_sudo and performs no action at all. -/
theorem needs_sudo_without_password_witness :
    (remove_application wNoWrite none "Foo" none).result.success = false ∧
    (remove_application wNoWrite none "Foo" none).result.needs_sudo = true ∧
    (remove_application wNoWrite none "Foo" none).actions = [] := by
  have h := needs_sudo_without_password wNoWrite none "Foo" none "/Applications/Foo.app"
    (by decide) rfl rfl (Or.inr (by decide))
  exact ⟨h.1, h.2.1, h.2.2.2.2.1 (by decide)⟩

/-! ## C1: locality of sweep failures -/

/-- Agreement of two worlds on every oracle except the deletion and
process-outcome oracles (the failure behaviour). -/
def World.SameCore (w w' : World) : Prop :=
  w.home = w'.home ∧ w.pathExists = w'.pathExists ∧ w.glob = w'.glob ∧
  w.plistLoad = w'.plistLoad ∧ w.access_W_OK = w'.access_W_OK

lemma find_app_path_congr (w w' : World) (h : World.SameCore w w') (n : String) :
    find_app_path w n = find_app_path w' n := by
  obtain ⟨h1, h2, h3, h4, h5⟩ := h
  simp [find_app_path, h2, h3]

lemma get_app_info_congr (w w' : World) (h : World.SameCore w w') (p : String) :
    get_app_info w p = get_app_info w' p := by
  obtain ⟨h1, h2, h3, h4, h5⟩ := h
  simp [get_app_info, h2, h4]

lemma is_app_store_congr (w w' : World) (h : World.SameCore w w') (i : Option AppInfo) :
    is_app_store_app w i = is_app_store_app w' i := by
  cases i with
  | none => rfl
  | some info =>
      obtain ⟨h1, h2, h3, h4, h5⟩ := h
      simp only [is_app_store_app, h2, find_app_path_congr w w' ⟨h1, h2, h3, h4, h5⟩]

/-- The bundle phase only consults the world through the bundle path's
deletion outcome, its sudo `rm` spawn and its write access. -/
lemma bundlePhase_congr (w w' : World) (isAS : Bool) (pw sp : Option String)
    (an p : String) (rm : List String)
    (hdel : w.deleteExc p = w'.deleteExc p)
    (hex : ∀ s, w.exec ["sudo", "-S", "rm", "-rf", p] s = w'.exec ["sudo", "-S", "rm", "-rf", p] s)
    (hacc : w.access_W_OK p = w'.access_W_OK p) :
    bundlePhase w isAS pw sp an p rm = bundlePhase w' isAS pw sp an p rm := by
  have hrun : run_with_sudo w sp ["rm", "-rf", p] pw = run_with_sudo w' sp ["rm", "-rf", p] pw := by
    unfold run_with_sudo
    have hx := hex (pw.getD (sp.getD "") ++ "\n")
    simp only [List.cons_append, List.nil_append] at hx ⊢
    rw [hx]
  unfold bundlePhase
  rw [hrun, hdel, hacc]

/-- The success, needs-sudo flag and message of the bundle phase do not
depend on the removed-files list accumulated by the sweep. -/
lemma bundlePhase_result_indep (w : World) (isAS : Bool) (pw sp : Option String)
    (an p : String) (rm1 rm2 : List String) :
    (bundlePhase w isAS pw sp an p rm1).1.success =
      (bundlePhase w isAS pw sp an p rm2).1.success ∧
    (bundlePhase w isAS pw sp an p rm1).1.needs_sudo =
      (bundlePhase w isAS pw sp an p rm2).1.needs_sudo ∧
    (bundlePhase w isAS pw sp an p rm1).1.message =
      (bundlePhase w isAS pw sp an p rm2).1.message := by
  by_cases h1 : (isAS || !(w.access_W_OK p)) = true
  · by_cases h2 : (!(pyTruthy pw) && !(pyTruthy sp)) = true
    · simp [bundlePhase, h1, h2]
    · cases herr : (run_with_sudo w sp ["rm", "-rf", p] pw).error with
      | none => simp [bundlePhase, h1, h2, herr]
      | some e => simp [bundlePhase, h1, h2, herr]
  · cases hd : w.deleteExc p with
    | none => simp [bundlePhase, h1, hd]
    | some e =>
        by_cases hperm : (e.isPermissionError || containsSubstr e.msg "Permission denied") = true <;>
          simp [bundlePhase, h1, hd, hperm]

/-- The removed-files list of the bundle phase extends the sweep's list. -/
lemma bundlePhase_removed_prefix (w : World) (isAS : Bool) (pw sp : Option String)
    (an p : String) (rm : List String) :
    ∃ suffix, (bundlePhase w isAS pw sp an p rm).1.removed_files = rm ++ suffix := by
  by_cases h1 : (isAS || !(w.access_W_OK p)) = true
  · by_cases h2 : (!(pyTruthy pw) && !(pyTruthy sp)) = true
    · exact ⟨[], by simp [bundlePhase, h1, h2]⟩
    · cases herr : (run_with_sudo w sp ["rm", "-rf", p] pw).error with
      | none => exact ⟨[p ++ " (sudo)"], by simp [bundlePhase, h1, h2, herr]⟩
      | some e => exact ⟨[], by simp [bundlePhase, h1, h2, herr]⟩
  · cases hd : w.deleteExc p with
    | none => exact ⟨[p], by simp [bundlePhase, h1, hd]⟩
    | some e =>
        by_cases hperm : (e.isPermissionError || containsSubstr e.msg "Permission denied") = true <;>
          exact ⟨[], by simp [bundlePhase, h1, hd, hperm]⟩

/-- A removal entry of one processed match is an entry of the whole
sweep. -/
lemma sweepAll_removed_mem (w : World) (isAS : Bool) (pw sp : Option String) (x : String) :
    ∀ (items : List String) (item : String), item ∈ items →
      x ∈ (sweepItem w isAS pw sp item).removed →
      x ∈ (sweepAll w isAS pw sp items).removed := by
  intro items
  induction items with
  | nil => intro item h; exact absurd h (List.not_mem_nil item)
  | cons b bs ih =>
    intro item hmem hx
    simp only [sweepAll, Eff.seq_removed]
    rcases List.mem_cons.1 hmem with rfl | h2
    · exact List.mem_append_left _ hx
    · exact List.mem_append_right _ (ih item h2 hx)

/-- A log line of one processed match is a log line of the whole sweep. -/
lemma sweepAll_logs_mem (w : World) (isAS : Bool) (pw sp : Option String) (x : String) :
    ∀ (items : List String) (item : String), item ∈ items →
      x ∈ (sweepItem w isAS pw sp item).logs →
      x ∈ (sweepAll w isAS pw sp items).logs := by
  intro items
  induction items with
  | nil => intro item h; exact absurd h (List.not_mem_nil item)
  | cons b bs ih =>
    intro item hmem hx
    simp only [sweepAll, Eff.seq_logs]
    rcases List.mem_cons.1 hmem with rfl | h2
    · exact List.mem_append_left _ hx
    · exact List.mem_append_right _ (ih item h2 hx)

/-- C1: per-file sweep failures are local.  Changing only the failure
oracles away from the bundle path (worlds agreeing on their core, on the
bundle path's deletion outcome and on its sudo `rm` spawn) never changes
the overall success, needs-sudo flag or message; overall success is
exactly the success of the final bundle-deletion step; and the sweep is
exhausted: every directly-deletable match whose own deletion succeeds is
reported removed, and every match whose own deletion raises is logged
and skipped — independent of all other matches' outcomes. -/
theorem sweep_failures_local (w w' : World) (sp0 : Option String) (app_name : String)
    (password : Option String) (p : String)
    (hsame : World.SameCore w w')
    (hfind : find_app_path w app_name = some p)
    (hdel : w.deleteExc p = w'.deleteExc p)
    (hex : ∀ s, w.exec ["sudo", "-S", "rm", "-rf", p] s =
      w'.exec ["sudo", "-S", "rm", "-rf", p] s) :
    ((remove_application w sp0 app_name password).result.success =
      (remove_application w' sp0 app_name password).result.success) ∧
    ((remove_application w sp0 app_name password).result.needs_sudo =
      (remove_application w' sp0 app_name password).result.needs_sudo) ∧
    ((remove_application w sp0 app_name password).result.message =
      (remove_application w' sp0 app_name password).result.message) ∧
    ((remove_application w sp0 app_name password).result.success = true ↔
      (if (is_app_store_app w (get_app_info w p).1 || !(w.access_W_OK p)) = true then
        (pyTruthy password || pyTruthy (updatedSudoPassword password sp0)) = true ∧
        (run_with_sudo w (updatedSudoPassword password sp0) ["rm", "-rf", p] password).error = none
      else w.deleteExc p = none)) ∧
    (∀ info, (get_app_info w p).1 = some info →
      ∀ item ∈ sweepMatches w (mkPatterns info),
        strStartsWith item "/Library" = false → strStartsWith item "/private" = false →
        is_app_store_app w (some info) = false →
        (w.deleteExc item = none →
          item ∈ (remove_application w sp0 app_name password).result.removed_files) ∧
        (∀ e, w.deleteExc item = some e →
          ("Error removing " ++ item ++ ": " ++ e.msg) ∈
            (remove_application w sp0 app_name password).logs)) := by
  have hfind' : find_app_path w' app_name = some p := by
    rw [← find_app_path_congr w w' hsame]
    exact hfind
  have hgi : get_app_info w p = get_app_info w' p := get_app_info_congr w w' hsame p
  have hASc : is_app_store_app w' (get_app_info w' p).1 =
      is_app_store_app w (get_app_info w p).1 := by
    rw [hgi]
    exact (is_app_store_congr w w' hsame _).symm
  have hacc : w.access_W_OK p = w'.access_W_OK p := by
    obtain ⟨h1, h2, h3, h4, h5⟩ := hsame
    rw [h5]
  have hbc := bundlePhase_congr w w' (is_app_store_app w (get_app_info w p).1) password
    (updatedSudoPassword password sp0) app_name p
    (remove_app_files w (updatedSudoPassword password sp0) (get_app_info w p).1 password).removed
    hdel hex hacc
  have hbi := bundlePhase_result_indep w' (is_app_store_app w (get_app_info w p).1) password
    (updatedSudoPassword password sp0) app_name p
    (remove_app_files w (updatedSudoPassword password sp0) (get_app_info w p).1 password).removed
    (remove_app_files w' (updatedSudoPassword password sp0) (get_app_info w' p).1 password).removed
  refine ⟨?_, ?_, ?_, ?_, ?_⟩
  · simp only [remove_application, hfind, hfind', removeFound, hASc]
    rw [hbc]
    exact hbi.1
  · simp only [remove_application, hfind, hfind', removeFound, hASc]
    rw [hbc]
    exact hbi.2.1
  · simp only [remove_application, hfind, hfind', removeFound, hASc]
    rw [hbc]
    exact hbi.2.2
  · simp only [remove_application, hfind, removeFound]
    by_cases h1 : (is_app_store_app w (get_app_info w p).1 || !(w.access_W_OK p)) = true
    · rw [if_pos h1]
      by_cases h2 : (!(pyTruthy password) && !(pyTruthy (updatedSudoPassword password sp0))) = true
      · have h3 : (pyTruthy password || pyTruthy (updatedSudoPassword password sp0)) = false := by
          cases hpa : pyTruthy password <;>
            cases hpb : pyTruthy (updatedSudoPassword password sp0) <;>
            simp [hpa, hpb] at h2 ⊢
        simp [bundlePhase, h1, h2, h3]
      · have h3 : (pyTruthy password || pyTruthy (updatedSudoPassword password sp0)) = true := by
          cases hpa : pyTruthy password <;>
            cases hpb : pyTruthy (updatedSudoPassword password sp0) <;>
            simp [hpa, hpb] at h2 ⊢
        cases herr : (run_with_sudo w (updatedSudoPassword password sp0)
            ["rm", "-rf", p] password).error with
        | none => simp [bundlePhase, h1, h2, h3, herr]
        | some e => simp [bundlePhase, h1, h2, h3, herr]
    · rw [if_neg h1]
      cases hd : w.deleteExc p with
      | none => simp [bundlePhase, h1, hd]
      | some e =>
          by_cases hperm : (e.isPermissionError || containsSubstr e.msg "Permission denied") = true <;>
            simp [bundlePhase, h1, hd, hperm]
  · intro info hinfo item hmem hL hP hAS2
    have hcondF : (strStartsWith item "/Library" || strStartsWith item "/private" ||
        is_app_store_app w (some info)) = false := by
      simp [hL, hP, hAS2]
    constructor
    · intro hdelitem
      have hitem : (sweepItem w (is_app_store_app w (some info)) password
          (updatedSudoPassword password sp0) item).removed = [item] := by
        simp [sweepItem, hcondF, hdelitem]
      have hmem2 : item ∈ (remove_app_files w (updatedSudoPassword password sp0)
          (some info) password).removed := by
        simp only [remove_app_files, Eff.seq_removed]
        refine List.mem_append_left _ ?_
        refine sweepAll_removed_mem w _ password (updatedSudoPassword password sp0) item _
          item hmem ?_
        rw [hitem]
        exact List.mem_singleton_self item
      obtain ⟨suffix, hsuf⟩ := bundlePhase_removed_prefix w (is_app_store_app w (some info))
        password (updatedSudoPassword password sp0) app_name p
        (remove_app_files w (updatedSudoPassword password sp0) (some info) password).removed
      simp only [remove_application, hfind, removeFound, hinfo]
      rw [hsuf]
      exact List.mem_append_left _ hmem2
    · intro e hdelitem
      have hitem : (sweepItem w (is_app_store_app w (some info)) password
          (updatedSudoPassword password sp0) item).logs =
          ["Error removing " ++ item ++ ": " ++ e.msg] := by
        simp [sweepItem, hcondF, hdelitem]
      simp only [remove_application, hfind, removeFound, hinfo]
      refine List.mem_append_right _ ?_
      simp only [remove_app_files, Eff.seq_logs]
      refine List.mem_append_left _ ?_
      refine sweepAll_logs_mem w _ password (updatedSudoPassword password sp0) _ _
        item hmem ?_
      rw [hitem]
      exact List.mem_singleton_self _

/-- A world with one writable bundle `/Applications/Foo.app` whose
metadata resolves, and a single sweep match in the user cache directory;
every deletion succeeds. -/
def wSweepOk : World :=
  { home := "/Users/u",
    pathExists := fun p =>
      p == "/Applications/Foo.app" || p == "/Applications/Foo.app/Contents/Info.plist" ||
        p == "/Users/u/Library/Caches",
    glob := fun d pat =>
      if d == "/Users/u/Library/Caches" && pat == "com.foo*" then
        ["/Users/u/Library/Caches/com.foo"]
      else [],
    plistLoad := fun _ => PlistOutcome.ok ⟨some "com.foo", some "Foo", some "Foo"⟩,
    access_W_OK := fun _ => true,
    deleteExc := fun _ => none,
    exec := fun _ _ => ExecOutcome.ok ⟨0, "", ""⟩,
    defaultsRun := fun _ => ExecOutcome.ok ⟨0, "", ""⟩ }

/-- `wSweepOk` with the deletion of the single sweep match failing. -/
def wSweepFail : World :=
  { wSweepOk with
    deleteExc := fun q =>
      if q == "/Users/u/Library/Caches/com.foo" then some ⟨false, "Device busy"⟩ else none }

/-- Witness for C1: injecting a failure at the single sweep match leaves
the overall success unchanged, and in the unmodified run the match is
reported removed. -/
theorem sweep_failures_local_witness :
    (remove_application wSweepOk none "Foo" (some "pw")).result.success =
      (remove_application wSweepFail none "Foo" (some "pw")).result.success ∧
    "/Users/u/Library/Caches/com.foo" ∈
      (remove_application wSweepOk none "Foo" (some "pw")).result.removed_files := by
  have h := sweep_failures_local wSweepOk wSweepFail none "Foo" (some "pw")
    "/Applications/Foo.app" ⟨rfl, rfl, rfl, rfl, rfl⟩ (by decide) (by decide) (fun s => rfl)
  refine ⟨h.1, ?_⟩
  exact (h.2.2.2.2 ⟨some "com.foo", some "Foo", some "Foo"⟩ (by decide)
    "/Users/u/Library/Caches/com.foo" (by decide) (by decide) (by decide) (by decide)).1 rfl

end KeyRemover
